import Mathlib

/-!
Verification of `control.py` from pedrodbs/LEDLightStripControl.

Shallow embedding over exact rationals: colours are modelled by their
`colour`-library views (`rgb` as a triple of rationals in [0,1], `hsl`
likewise), byte payloads as lists of naturals, and the infinite control
loop as a trace function over the list of per-attempt outcomes.
-/

namespace LEDControl

/-- Python `int()` applied to a rational: truncation toward zero. -/
def pyInt (q : ℚ) : ℤ :=
  if q < 0 then -⌊-q⌋ else ⌊q⌋

/-- Value of a single hexadecimal digit character, lowercase or uppercase
(`int(c, 16)` semantics as used by `bytes.fromhex`). -/
def hexDigitVal (c : Char) : Option ℕ :=
  if '0' ≤ c ∧ c ≤ '9' then some (c.toNat - '0'.toNat)
  else if 'a' ≤ c ∧ c ≤ 'f' then some (c.toNat - 'a'.toNat + 10)
  else if 'A' ≤ c ∧ c ≤ 'F' then some (c.toNat - 'A'.toNat + 10)
  else none

/-- Python `bytes.fromhex`: consume the hex string two digits at a time,
producing one byte per pair; fail on a non-hex digit or an odd length. -/
def bytesFromHex : List Char → Option (List ℕ)
  | [] => some []
  | hi :: lo :: rest => do
    let h ← hexDigitVal hi
    let l ← hexDigitVal lo
    let r ← bytesFromHex rest
    pure ((16 * h + l) :: r)
  | [_] => none

/-- Python `f'\x7bn:02x\x7d'`: lowercase hex digits of `n`, left-padded
with `'0'` to at least two characters. -/
def format02x (n : ℕ) : List Char :=
  let ds := Nat.toDigits 16 n
  List.replicate (2 - ds.length) '0' ++ ds

/-- RGB view of a colour: three rationals, each expected in [0,1]
(the `colour` library's `Color.rgb`). -/
abbrev RGB := ℚ × ℚ × ℚ

/-- HSL view of a colour: hue, saturation, lightness rationals
(the `colour` library's `Color.hsl`). -/
abbrev HSL := ℚ × ℚ × ℚ

/-- Hex payload string built by `change_color`:
`f'56\x7bhex_color\x7d00f0aa'` with `hex_color = f'\x7br:02x\x7d\x7bg:02x\x7d\x7bb:02x\x7d'`
where `r, g, b = int(color[0]*255), int(color[1]*255), int(color[2]*255)`.
Channels of a valid colour are nonnegative, so `Int.toNat` is exact. -/
def changeColorHex (c : RGB) : List Char :=
  let r := (pyInt (c.1 * 255)).toNat
  let g := (pyInt (c.2.1 * 255)).toNat
  let b := (pyInt (c.2.2 * 255)).toNat
  ('5' :: '6' :: []) ++ format02x r ++ format02x g ++ format02x b
    ++ ('0' :: '0' :: 'f' :: '0' :: 'a' :: 'a' :: [])

/-- Byte payload written by `change_color`:
`bytes.fromhex(f'56\x7bhex_color\x7d00f0aa')`. -/
def changeColorData (c : RGB) : Option (List ℕ) :=
  bytesFromHex (changeColorHex c)

/-- Decoding bytes 1..3 of a set-color frame back into channel values. -/
def decodeSetColor (frame : List ℕ) : Option (ℕ × ℕ × ℕ) := do
  let r ← frame.get? 1
  let g ← frame.get? 2
  let b ← frame.get? 3
  pure (r, g, b)

/-- Source constant `POWER_ON_CODE = 'cc2333'`. -/
def POWER_ON_CODE : List Char := 'c' :: 'c' :: '2' :: '3' :: '3' :: '3' :: []

/-- Source constant `POWER_OFF_CODE = 'cc2433'`. -/
def POWER_OFF_CODE : List Char := 'c' :: 'c' :: '2' :: '4' :: '3' :: '3' :: []

/-- Byte payload written by `change_power_status`:
`bytes.fromhex(POWER_ON_CODE if status else POWER_OFF_CODE)`. -/
def changePowerData (status : Bool) : Option (List ℕ) :=
  bytesFromHex (if status then POWER_ON_CODE else POWER_OFF_CODE)

/-- Decidable check that `format02x n` is two hex digits decoding back to `n`. -/
def format02xDecodes (n : ℕ) : Bool :=
  match format02x n with
  | hi :: lo :: [] =>
    match hexDigitVal hi, hexDigitVal lo with
    | some h, some l => 16 * h + l == n
    | _, _ => false
  | _ => false

/-- Linear interpolation in HSL space, the colour library's
`color_scale(begin_hsl, end_hsl, nb)`: step = (end - begin)/nb when nb > 0
(else the zero triple), returning `[begin + step*r for r in range(0, nb+1)]`,
hence nb+1 colours from begin to end, both inclusive. -/
def colorScale (b e : HSL) (nb : ℕ) : List HSL :=
  let step : HSL :=
    if 0 < nb then ((e.1 - b.1) / nb, (e.2.1 - b.2.1) / nb, (e.2.2 - b.2.2) / nb)
    else (0, 0, 0)
  (List.range (nb + 1)).map (fun r : ℕ =>
    (b.1 + step.1 * (r : ℚ), b.2.1 + step.2.1 * (r : ℚ), b.2.2 + step.2.2 * (r : ℚ)))

/-- Model of `Color.range_to(value, steps)`: it yields `color_scale(self.hsl, value.hsl,
steps - 1)`, i.e. exactly `steps` colours including both endpoints; with
steps = 0 `color_scale` receives nb = -1 and raises ValueError, modelled as
`none`. -/
def rangeTo (b e : HSL) (steps : ℕ) : Option (List HSL) :=
  if steps = 0 then none else some (colorScale b e (steps - 1))

/-- Per-pair segments of the `DEMO_COLORS` comprehension: one `range_to`
call per adjacent anchor pair, failing as a whole if any call fails. -/
def demoSegments (n : ℕ) : List (HSL × HSL) → Option (List (List HSL))
  | [] => some []
  | p :: t => do
    let s ← rangeTo p.1 p.2 n
    let r ← demoSegments n t
    pure (s :: r)

/-- Palette built as in the `DEMO_COLORS` comprehension for arbitrary
anchors and transition count:
`list(it.chain(*[list(a[i].range_to(a[i+1], n)) for i in range(len(a)-1)]))`.
The index pairs (a[i], a[i+1]) are `a.zip a.tail`; `it.chain` concatenates
the segments. -/
def demoColors (anchors : List HSL) (n : ℕ) : Option (List HSL) :=
  (demoSegments n (anchors.zip anchors.tail)).map List.flatten

/-- HSL view of the colour library's named colour 'red': hue 0, full
saturation, half lightness. -/
def redHSL : HSL := (0, 1, 1/2)

/-- HSL view of the colour library's named colour 'green' (pure green):
hue 1/3, full saturation, half lightness. -/
def greenHSL : HSL := (1/3, 1, 1/2)

/-- Colours written by the ambient sub-loop over a finite list of sampled
colours: the source keeps `_prev_color` (initially None) and, when
`_prev_color != color`, calls `change_color` and sets `_prev_color = color`;
otherwise it writes nothing and leaves `_prev_color` unchanged. -/
def ambientWrites {α : Type} [DecidableEq α] : Option α → List α → List α
  | _, [] => []
  | prev, c :: rest =>
    if prev ≠ some c then c :: ambientWrites (some c) rest
    else ambientWrites prev rest

/-- Commands a connected session can issue. -/
inductive Command where
  | setColor (c : HSL)
  | setPower (status : Bool)
deriving DecidableEq

/-- Recogniser for power commands. -/
def isPowerCommand : Command → Bool
  | .setPower _ => true
  | .setColor _ => false

/-- First k colour writes of `demo_mode` after a successful connection: one
`change_power_status(client, status=True)`, then one `change_color` per
element of `it.cycle(DEMO_COLORS)` (index i reads the palette at
i mod length; the real `DEMO_COLORS` is nonempty). -/
def demoModeCommands (palette : List HSL) (k : ℕ) : List Command :=
  Command.setPower true ::
    (List.range k).map (fun i =>
      Command.setColor (palette.getD (i % palette.length) (0, 0, 0)))

/-- Commands issued by `ambient_mode` over a finite list of sampled
colours: one `change_color` per de-duplicated sample and nothing else —
`ambient_mode` never calls `change_power_status`. -/
def ambientModeCommands (samples : List HSL) : List Command :=
  (ambientWrites none samples).map Command.setColor

/-- Exceptions that can end one pass of a connected session's sub-loop. -/
inductive SubloopExit where
  | linkError      -- bleak.exc.BleakError raised by a GATT write
  | captureError   -- mss.exc.ScreenShotError raised by sct.grab
deriving DecidableEq

/-- Outcome of one pass of the `while True` body in `main`. -/
inductive Attempt where
  | connectFail               -- BleakError while establishing the connection
  | runFail (e : SubloopExit) -- connected; the sub-loop later raised e
deriving DecidableEq

/-- Observable events of the connection loop. -/
inductive Event where
  | tryConnect
  | connected
  | waitRetry (secs : ℕ)
  | crash   -- an uncaught exception terminates the process
deriving DecidableEq

/-- Source constant `RETRY_INTERVAL = 5` (seconds). -/
def RETRY_INTERVAL : ℕ := 5

/-- Trace of `main`'s `while True` loop over a finite list of per-attempt
outcomes. The `except bleak.exc.BleakError` clause catches connection
failures and link failures alike (log, `time.sleep(RETRY_INTERVAL)`,
retry); a capture error raised inside `ambient_mode` is not a BleakError,
so it escapes the try block and terminates the process. -/
def controlLoop : List Attempt → List Event
  | [] => []
  | .connectFail :: rest =>
    .tryConnect :: .waitRetry RETRY_INTERVAL :: controlLoop rest
  | .runFail .linkError :: rest =>
    .tryConnect :: .connected :: .waitRetry RETRY_INTERVAL :: controlLoop rest
  | .runFail .captureError :: _ =>
    [.tryConnect, .connected, .crash]

/-- Python runtime values relevant to the logging-handler expression. -/
inductive PyVal where
  | streamHandler
  | fileHandler
  | pyList (xs : List PyVal)

/-- Python `+` with a list left operand: concatenation when the right
operand is also a list, otherwise
`TypeError: can only concatenate list (not ...) to list`. Any other left
operand is irrelevant here and also modelled as a TypeError. -/
def pyAdd : PyVal → PyVal → Except String PyVal
  | .pyList xs, .pyList ys => .ok (.pyList (xs ++ ys))
  | _, _ => .error "TypeError"

/-- Handler-list expression in `main`:
`handlers = [stream_handler] + (logging.FileHandler('bt_lights.log', mode='w+') if args.log else [])`. -/
def buildHandlers (log : Bool) : Except String PyVal :=
  pyAdd (.pyList [.streamHandler]) (if log then .fileHandler else .pyList [])

/-- Startup-then-loop structure of `main`: the logging handlers are built
before the connection loop starts, and an exception there propagates
immediately. -/
def mainRun (log : Bool) (attempts : List Attempt) :
    Except String (List Event) := do
  let _ ← buildHandlers log
  pure (controlLoop attempts)

/-- Hue normalisation at the end of the colour library's `rgb2hsl`:
`if h < 0: h += 1` then `if h > 1: h -= 1`. -/
def normHue (h : ℚ) : ℚ :=
  let h1 := if h < 0 then h + 1 else h
  if h1 > 1 then h1 - 1 else h1

/-- Python `min` on two values: the first if it is ≤ the second. -/
def pyMin (a b : ℚ) : ℚ := if a ≤ b then a else b

/-- Python `max` on two values: the second if the first is ≤ it. -/
def pyMax (a b : ℚ) : ℚ := if a ≤ b then b else a

/-- RGB-to-HSL conversion of the colour library (`rgb2hsl`), over exact
rationals. When no channel dominates, i.e. diff = 0, hue and saturation are
0; `r == vmax` and `g == vmax` are tested in order, the remaining case being
`b == vmax`. -/
def rgb2hsl (c : RGB) : HSL :=
  let r := c.1
  let g := c.2.1
  let b := c.2.2
  let vmin := pyMin r (pyMin g b)
  let vmax := pyMax r (pyMax g b)
  let diff := vmax - vmin
  let vsum := vmin + vmax
  let l := vsum / 2
  if diff = 0 then (0, 0, l)
  else
    let s := if l < 1/2 then diff / vsum else diff / (2 - vsum)
    let dr := ((vmax - r) / 6 + diff / 2) / diff
    let dg := ((vmax - g) / 6 + diff / 2) / diff
    let db := ((vmax - b) / 6 + diff / 2) / diff
    let h0 := if r = vmax then db - dg
              else if g = vmax then 1/3 + dr - db
              else 2/3 + dg - dr
    (normHue h0, s, l)

/-- Helper `_hue2rgb(v1, v2, vH)` of the colour library. The source
normalises vH with `while vH < 0: vH += 1` and `while vH > 1: vH -= 1`;
every call site passes vH = h ± 1/3 with h in [0,1], so a single step of
each loop suffices and is what is modelled. -/
def hue2rgb (v1 v2 vH : ℚ) : ℚ :=
  let w0 := if vH < 0 then vH + 1 else vH
  let w := if w0 > 1 then w0 - 1 else w0
  if 6 * w < 1 then v1 + (v2 - v1) * 6 * w
  else if 2 * w < 1 then v2
  else if 3 * w < 2 then v1 + (v2 - v1) * (2/3 - w) * 6
  else v1

/-- HSL-to-RGB conversion of the colour library (`hsl2rgb`). -/
def hsl2rgb (c : HSL) : RGB :=
  let h := c.1
  let s := c.2.1
  let l := c.2.2
  if s = 0 then (l, l, l)
  else
    let v2 := if l < 1/2 then l * (1 + s) else (l + s) - (s * l)
    let v1 := 2 * l - v2
    (hue2rgb v1 v2 (h + 1/3), hue2rgb v1 v2 h, hue2rgb v1 v2 (h - 1/3))

/-- Descending order on the (count, palette-index) pairs returned by
`img.getcolors()`: Python compares tuples lexicographically, and
`reverse=True` yields larger counts first, ties broken by larger index. -/
def countGe (a b : ℕ × ℕ) : Prop :=
  b.1 < a.1 ∨ (a.1 = b.1 ∧ b.2 ≤ a.2)

instance : DecidableRel countGe := fun a b =>
  inferInstanceAs (Decidable (b.1 < a.1 ∨ (a.1 = b.1 ∧ b.2 ≤ a.2)))

instance : IsTotal (ℕ × ℕ) countGe :=
  ⟨by intro a b; unfold countGe; omega⟩

instance : IsTrans (ℕ × ℕ) countGe :=
  ⟨by intro a b c; unfold countGe; omega⟩

/-- Model of `sorted(img.getcolors(), reverse=True)`: stable descending sort of the
(count, index) pairs. -/
def sortedDesc (l : List (ℕ × ℕ)) : List (ℕ × ℕ) :=
  l.insertionSort countGe

/-- Pure tail of `_get_dominant_screen_color` after the external capture
and PIL collaborators (`sct.grab`, `thumbnail`, ADAPTIVE-palette `convert`)
have produced `color_counts = img.getcolors()` and the flat `palette` byte
list: take `sorted(color_counts, reverse=True)[0]`, slice its colour at
`palette[index*3 : index*3+3]`, divide the channels by 255, convert to HSL
and force lightness to 0.5. Indexing an empty count list or running the
slice off the end of the palette raises in Python, modelled as `none`. -/
def getDominantScreenColor (colorCounts : List (ℕ × ℕ)) (palette : List ℕ) :
    Option HSL :=
  match sortedDesc colorCounts with
  | [] => none
  | top :: _ =>
    let i := top.2
    match palette.get? (i * 3), palette.get? (i * 3 + 1),
        palette.get? (i * 3 + 2) with
    | some pr, some pg, some pb =>
      let c := rgb2hsl ((pr : ℚ) / 255, (pg : ℚ) / 255, (pb : ℚ) / 255)
      some (c.1, c.2.1, 1/2)
    | _, _, _ => none

set_option maxRecDepth 8000 in
theorem format02xDecodes_all : ∀ n, n < 256 → format02xDecodes n = true := by
  decide

/-- Every byte value below 256 formats to two hex digits that
`bytes.fromhex` parses back to the same value. -/
theorem bytesFromHex_format02x (n : ℕ) (h : n < 256) (rest : List Char) :
    bytesFromHex (format02x n ++ rest) =
      (bytesFromHex rest).map (fun r => n :: r) := by
  have hd := format02xDecodes_all n h
  unfold format02xDecodes at hd
  cases hfmt : format02x n with
  | nil => rw [hfmt] at hd; simp at hd
  | cons hi t =>
    cases t with
    | nil => rw [hfmt] at hd; simp at hd
    | cons lo t2 =>
      cases t2 with
      | nil =>
        rw [hfmt] at hd
        cases hh : hexDigitVal hi with
        | none => simp [hh] at hd
        | some hv =>
          cases hl : hexDigitVal lo with
          | none => simp [hh, hl] at hd
          | some lv =>
            simp only [hh, hl] at hd
            have hval : 16 * hv + lv = n := by
              simpa using hd
            simp only [List.cons_append, List.nil_append, bytesFromHex, hh, hl,
              Option.bind_eq_bind, Option.some_bind]
            cases hrest : bytesFromHex rest with
            | none => simp [hrest]
            | some r => simp [hrest, hval]
      | cons c t3 => rw [hfmt] at hd; simp at hd

theorem pyInt_natCast (n : ℕ) : pyInt (n : ℚ) = (n : ℤ) := by
  unfold pyInt
  rw [if_neg (not_lt.mpr (by positivity))]
  exact Int.floor_natCast n

theorem bytesFromHex_cons2 (hi lo : Char) (rest : List Char) (h l : ℕ)
    (hh : hexDigitVal hi = some h) (hl : hexDigitVal lo = some l) :
    bytesFromHex (hi :: lo :: rest) =
      (bytesFromHex rest).map (fun r => (16 * h + l) :: r) := by
  simp only [bytesFromHex, hh, hl, Option.bind_eq_bind, Option.some_bind]
  cases bytesFromHex rest with
  | none => simp
  | some r => simp

/-- C1: for every colour with integer channels R, G, B in [0,255], the
set-color payload built by `change_color` is exactly the seven bytes
`[0x56, R, G, B, 0x00, 0xF0, 0xAA]`, and reading bytes 1..3 of that frame
recovers exactly (R, G, B). -/
theorem change_color_roundtrip (R G B : ℕ)
    (hR : R ≤ 255) (hG : G ≤ 255) (hB : B ≤ 255) :
    changeColorData ((R : ℚ) / 255, (G : ℚ) / 255, (B : ℚ) / 255)
        = some [0x56, R, G, B, 0x00, 0xF0, 0xAA] ∧
    (changeColorData ((R : ℚ) / 255, (G : ℚ) / 255, (B : ℚ) / 255)).bind
        decodeSetColor = some (R, G, B) := by
  have hch : ∀ n : ℕ, ((n : ℚ) / 255) * 255 = (n : ℚ) := fun n =>
    div_mul_cancel₀ _ (by norm_num)
  have hhex : changeColorHex ((R : ℚ) / 255, (G : ℚ) / 255, (B : ℚ) / 255)
      = '5' :: '6' :: (format02x R ++ (format02x G ++ (format02x B ++
          ('0' :: '0' :: 'f' :: '0' :: 'a' :: 'a' :: [])))) := by
    unfold changeColorHex
    simp only [hch, pyInt_natCast, Int.toNat_natCast]
    simp [List.append_assoc]
  have henc : changeColorData ((R : ℚ) / 255, (G : ℚ) / 255, (B : ℚ) / 255)
      = some [0x56, R, G, B, 0x00, 0xF0, 0xAA] := by
    unfold changeColorData
    rw [hhex]
    rw [bytesFromHex_cons2 '5' '6' _ 5 6 (by decide) (by decide)]
    rw [bytesFromHex_format02x R (by omega)]
    rw [bytesFromHex_format02x G (by omega)]
    rw [bytesFromHex_format02x B (by omega)]
    have htail : bytesFromHex ('0' :: '0' :: 'f' :: '0' :: 'a' :: 'a' :: [])
        = some [0x00, 0xF0, 0xAA] := by decide
    rw [htail]
    rfl
  refine ⟨henc, ?_⟩
  rw [henc]
  rfl

theorem change_color_roundtrip_witness :
    (18 ≤ 255 ∧ 52 ≤ 255 ∧ 255 ≤ 255) ∧
    (changeColorData ((18 : ℚ) / 255, (52 : ℚ) / 255, (255 : ℚ) / 255)
        = some [0x56, 18, 52, 255, 0x00, 0xF0, 0xAA] ∧
      (changeColorData ((18 : ℚ) / 255, (52 : ℚ) / 255, (255 : ℚ) / 255)).bind
        decodeSetColor = some (18, 52, 255)) :=
  ⟨⟨by norm_num, by norm_num, by norm_num⟩,
    change_color_roundtrip 18 52 255 (by norm_num) (by norm_num) (by norm_num)⟩

theorem colorScale_length (b e : HSL) (nb : ℕ) :
    (colorScale b e nb).length = nb + 1 := by
  unfold colorScale
  simp only [List.length_map, List.length_range]

theorem rangeTo_some (b e : HSL) (n : ℕ) (hn : n ≠ 0) :
    rangeTo b e n = some (colorScale b e (n - 1)) := by
  simp [rangeTo, hn]

theorem demoSegments_some (n : ℕ) (hn : n ≠ 0) (ps : List (HSL × HSL)) :
    demoSegments n ps
      = some (ps.map (fun p => colorScale p.1 p.2 (n - 1))) := by
  induction ps with
  | nil => rfl
  | cons p t ih => simp [demoSegments, rangeTo_some _ _ _ hn, ih]

/-- C2 counterexample: with anchors [red, green, red] and N = 3 the
generated palette has length 6, not the claimed N × (anchors − 1) + 1 = 7
(the colour library's `range_to` includes both endpoints in each segment). -/
theorem demo_colors_not_seven :
    (demoColors [redHSL, greenHSL, redHSL] 3).map List.length ≠ some 7 := by
  decide

/-- C2 amended: for every anchor list and transition count N ≥ 1 the
generated palette has length N × (anchors − 1) — one segment of exactly N
colours per adjacent anchor pair — and with anchors [red, g, red] and N = 3
the palette's first and last colours both equal red. -/
theorem demo_colors_spec (anchors : List HSL) (g : HSL) (n : ℕ) (hn : 1 ≤ n) :
    (demoColors anchors n).map List.length = some ((anchors.length - 1) * n) ∧
    (demoColors [redHSL, g, redHSL] 3).map List.head? = some (some redHSL) ∧
    (demoColors [redHSL, g, redHSL] 3).map List.getLast? = some (some redHSL) := by
  refine ⟨?_, ?_, ?_⟩
  · rw [demoColors, demoSegments_some n (by omega)]
    simp only [Option.map_some', Option.some.injEq, List.length_flatten, List.map_map]
    have hlen : ∀ p : HSL × HSL,
        (List.length ∘ fun p : HSL × HSL => colorScale p.1 p.2 (n - 1)) p = n := by
      intro p
      simp only [Function.comp_apply, colorScale_length]
      omega
    rw [List.map_congr_left (fun p _ => hlen p)]
    have hzip : (anchors.zip anchors.tail).length = anchors.length - 1 := by
      simp only [List.length_zip, List.length_tail]
      omega
    simp [List.map_const', hzip, List.sum_replicate, smul_eq_mul, Nat.mul_comm]
  · rw [demoColors, demoSegments_some 3 (by omega)]
    simp [colorScale, List.range_succ]
  · rw [demoColors, demoSegments_some 3 (by omega)]
    simp [colorScale, List.range_succ, redHSL]

theorem demo_colors_spec_witness :
    1 ≤ 3 ∧
    ((demoColors [redHSL, greenHSL, redHSL] 3).map List.length
        = some (([redHSL, greenHSL, redHSL].length - 1) * 3) ∧
      (demoColors [redHSL, greenHSL, redHSL] 3).map List.head?
        = some (some redHSL) ∧
      (demoColors [redHSL, greenHSL, redHSL] 3).map List.getLast?
        = some (some redHSL)) :=
  ⟨by norm_num, demo_colors_spec [redHSL, greenHSL, redHSL] greenHSL 3 (by norm_num)⟩

theorem destutter_eq_ambientWrites {α : Type} [DecidableEq α] (a : α)
    (l : List α) :
    List.destutter' (· ≠ ·) a l = a :: ambientWrites (some a) l := by
  induction l generalizing a with
  | nil => rfl
  | cons h t ih =>
    by_cases hne : a ≠ h
    · rw [List.destutter', if_pos hne, ih]
      rw [ambientWrites, if_pos (by simpa using hne)]
    · rw [List.destutter', if_neg hne, ih]
      rw [ambientWrites, if_neg (by simpa using hne)]

theorem ambientWrites_replicate_same {α : Type} [DecidableEq α] (c : α) :
    ∀ n : ℕ, ambientWrites (some c) (List.replicate n c) = [] := by
  intro n
  induction n with
  | zero => rfl
  | succ m ih =>
    rw [List.replicate_succ, ambientWrites, if_neg (by simp)]
    exact ih

/-- C4: the ambient sub-loop sends the first sampled colour and thereafter
writes exactly when the sample differs from the last colour sent — its
write sequence is the consecutive de-duplication (`destutter`) of the
sample sequence — so a run of n+1 identical samples yields exactly one
write. -/
theorem ambient_mode_dedup {α : Type} [DecidableEq α] (l : List α) (n : ℕ)
    (c : α) :
    ambientWrites (none : Option α) l = l.destutter (· ≠ ·) ∧
    ambientWrites (none : Option α) (List.replicate (n + 1) c) = [c] := by
  constructor
  · cases l with
    | nil => rfl
    | cons h t =>
      rw [List.destutter, destutter_eq_ambientWrites]
      rw [ambientWrites, if_pos (by simp)]
  · rw [List.replicate_succ, ambientWrites, if_pos (by simp)]
    rw [ambientWrites_replicate_same]

/-- C5: after every successful connection, demo mode issues exactly one
power command, which is the power-on command and comes before the first
set-color command; ambient mode issues no power command at all. -/
theorem power_on_discipline (palette : List HSL) (k : ℕ)
    (samples : List HSL) :
    (demoModeCommands palette k).head? = some (Command.setPower true) ∧
    (demoModeCommands palette k).countP isPowerCommand = 1 ∧
    (ambientModeCommands samples).countP isPowerCommand = 0 := by
  refine ⟨rfl, ?_, ?_⟩
  · simp [demoModeCommands, List.countP_cons, List.countP_map, isPowerCommand,
      Function.comp_def, List.countP_eq_zero]
  · simp [ambientModeCommands, List.countP_map, isPowerCommand,
      Function.comp_def, List.countP_eq_zero]

/-- C3 counterexample: a capture failure in the ambient sub-loop is not
handled like a link failure — the same run that retries after a link error
crashes the process after a capture error, with no retry wait. -/
theorem capture_error_crashes :
    controlLoop [.runFail .captureError]
        = [.tryConnect, .connected, .crash] ∧
    controlLoop [.runFail .linkError]
        = [.tryConnect, .connected, .waitRetry RETRY_INTERVAL] := by
  exact ⟨rfl, rfl⟩

/-- C3 amended: only Bleak link errors trigger the log/wait/retry path;
a capture error escapes the `except bleak.exc.BleakError` handler and
terminates the process, whatever would have followed. -/
theorem capture_error_terminates (rest : List Attempt) :
    controlLoop (.runFail .captureError :: rest)
        = [.tryConnect, .connected, .crash] ∧
    controlLoop (.runFail .linkError :: rest)
        = .tryConnect :: .connected :: .waitRetry RETRY_INTERVAL ::
            controlLoop rest := by
  exact ⟨rfl, rfl⟩

/-- C8: every failed connection attempt is followed by a wait of exactly
RETRY_INTERVAL = 5 seconds and a fresh attempt, for any number of
consecutive failures — there is no retry cap. -/
theorem retry_forever (n : ℕ) :
    controlLoop (List.replicate n .connectFail)
        = (List.replicate n
            [Event.tryConnect, Event.waitRetry RETRY_INTERVAL]).flatten ∧
    RETRY_INTERVAL = 5 := by
  refine ⟨?_, rfl⟩
  induction n with
  | zero => rfl
  | succ m ih =>
    rw [List.replicate_succ, List.replicate_succ, List.flatten_cons]
    rw [controlLoop, ih]
    rfl

/-- C10: with the --log flag the handler expression concatenates a list
with a bare FileHandler and raises TypeError before any connection attempt;
without --log, handler setup succeeds and the loop runs. -/
theorem log_flag_type_error (attempts : List Attempt) :
    mainRun true attempts = .error "TypeError" ∧
    mainRun false attempts = .ok (controlLoop attempts) := by
  exact ⟨rfl, rfl⟩

theorem pyMin_eq (a b : ℚ) : pyMin a b = min a b := by
  unfold pyMin
  split_ifs with h
  · exact (min_eq_left h).symm
  · exact (min_eq_right (le_of_not_le h)).symm

theorem pyMax_eq (a b : ℚ) : pyMax a b = max a b := by
  unfold pyMax
  split_ifs with h
  · exact (max_eq_right h).symm
  · exact (max_eq_left (le_of_not_le h)).symm

theorem normHue_mem (x : ℚ) (h1 : -(1/6) ≤ x) (h2 : x ≤ 5/6) :
    0 ≤ normHue x ∧ normHue x ≤ 1 := by
  simp only [normHue]
  split_ifs <;> constructor <;> linarith

/-- Unfolding of `rgb2hsl` with the let-bindings substituted. -/
theorem rgb2hsl_def (r g b : ℚ) :
    rgb2hsl (r, g, b) =
      (if pyMax r (pyMax g b) - pyMin r (pyMin g b) = 0 then
        ((0 : ℚ), (0 : ℚ), (pyMin r (pyMin g b) + pyMax r (pyMax g b)) / 2)
      else
        (normHue (if r = pyMax r (pyMax g b) then
            ((pyMax r (pyMax g b) - b) / 6 + (pyMax r (pyMax g b) - pyMin r (pyMin g b)) / 2)
                / (pyMax r (pyMax g b) - pyMin r (pyMin g b))
            - ((pyMax r (pyMax g b) - g) / 6 + (pyMax r (pyMax g b) - pyMin r (pyMin g b)) / 2)
                / (pyMax r (pyMax g b) - pyMin r (pyMin g b))
          else if g = pyMax r (pyMax g b) then
            1/3 + ((pyMax r (pyMax g b) - r) / 6 + (pyMax r (pyMax g b) - pyMin r (pyMin g b)) / 2)
                / (pyMax r (pyMax g b) - pyMin r (pyMin g b))
            - ((pyMax r (pyMax g b) - b) / 6 + (pyMax r (pyMax g b) - pyMin r (pyMin g b)) / 2)
                / (pyMax r (pyMax g b) - pyMin r (pyMin g b))
          else
            2/3 + ((pyMax r (pyMax g b) - g) / 6 + (pyMax r (pyMax g b) - pyMin r (pyMin g b)) / 2)
                / (pyMax r (pyMax g b) - pyMin r (pyMin g b))
            - ((pyMax r (pyMax g b) - r) / 6 + (pyMax r (pyMax g b) - pyMin r (pyMin g b)) / 2)
                / (pyMax r (pyMax g b) - pyMin r (pyMin g b))),
         (if (pyMin r (pyMin g b) + pyMax r (pyMax g b)) / 2 < 1/2 then
            (pyMax r (pyMax g b) - pyMin r (pyMin g b))
              / (pyMin r (pyMin g b) + pyMax r (pyMax g b))
          else
            (pyMax r (pyMax g b) - pyMin r (pyMin g b))
              / (2 - (pyMin r (pyMin g b) + pyMax r (pyMax g b)))),
         (pyMin r (pyMin g b) + pyMax r (pyMax g b)) / 2)) := rfl

/-- Hue and saturation produced by `rgb2hsl` on channel values in [0,1]
always lie in [0,1]. -/
theorem rgb2hsl_valid (r g b : ℚ)
    (hr0 : 0 ≤ r) (hr1 : r ≤ 1) (hg0 : 0 ≤ g) (hg1 : g ≤ 1)
    (hb0 : 0 ≤ b) (hb1 : b ≤ 1) :
    (0 ≤ (rgb2hsl (r, g, b)).1 ∧ (rgb2hsl (r, g, b)).1 ≤ 1) ∧
    (0 ≤ (rgb2hsl (r, g, b)).2.1 ∧ (rgb2hsl (r, g, b)).2.1 ≤ 1) := by
  rw [rgb2hsl_def]
  simp only [pyMin_eq, pyMax_eq]
  set vmin := min r (min g b) with hvmin
  set vmax := max r (max g b) with hvmax
  have h1 : vmin ≤ r := min_le_left _ _
  have h2 : vmin ≤ g := le_trans (min_le_right _ _) (min_le_left _ _)
  have h3 : vmin ≤ b := le_trans (min_le_right _ _) (min_le_right _ _)
  have h4 : r ≤ vmax := le_max_left _ _
  have h5 : g ≤ vmax := le_trans (le_max_left _ _) (le_max_right _ _)
  have h6 : b ≤ vmax := le_trans (le_max_right _ _) (le_max_right _ _)
  have h7 : 0 ≤ vmin := le_min hr0 (le_min hg0 hb0)
  have h8 : vmax ≤ 1 := max_le hr1 (max_le hg1 hb1)
  have h9 : vmin ≤ vmax := le_trans h1 h4
  by_cases hd : vmax - vmin = 0
  · rw [if_pos hd]
    norm_num
  · have hlt : vmin < vmax := by
      rcases lt_or_eq_of_le h9 with h | h
      · exact h
      · exact absurd (by rw [h]; ring) hd
    have h6pos : 0 < 6 * (vmax - vmin) := by linarith
    rw [if_neg hd]
    have key : ∀ x y : ℚ,
        ((vmax - x) / 6 + (vmax - vmin) / 2) / (vmax - vmin)
          - ((vmax - y) / 6 + (vmax - vmin) / 2) / (vmax - vmin)
        = (y - x) / (6 * (vmax - vmin)) := by
      intro x y
      field_simp
      ring
    have bnd : ∀ x y : ℚ, vmin ≤ x → x ≤ vmax → vmin ≤ y → y ≤ vmax →
        -(1/6) ≤ (y - x) / (6 * (vmax - vmin)) ∧
        (y - x) / (6 * (vmax - vmin)) ≤ 1/6 := by
      intro x y hx1 hx2 hy1 hy2
      constructor
      · rw [le_div_iff₀ h6pos]
        linarith
      · rw [div_le_iff₀ h6pos]
        linarith
    constructor
    · dsimp only
      split_ifs with hra hga
      · rw [key b g]
        obtain ⟨l1, l2⟩ := bnd b g h3 h6 h2 h5
        exact normHue_mem _ (by linarith) (by linarith)
      · rw [add_sub_assoc, key r b]
        obtain ⟨l1, l2⟩ := bnd r b h1 h4 h3 h6
        exact normHue_mem _ (by linarith) (by linarith)
      · rw [add_sub_assoc, key g r]
        obtain ⟨l1, l2⟩ := bnd g r h2 h5 h1 h4
        exact normHue_mem _ (by linarith) (by linarith)
    · dsimp only
      split_ifs with hls
      · have hsum : 0 < vmin + vmax := by linarith
        constructor
        · exact div_nonneg (by linarith) (le_of_lt hsum)
        · rw [div_le_one hsum]
          linarith
      · have h2sum : 0 < 2 - (vmin + vmax) := by linarith
        constructor
        · exact div_nonneg (by linarith) (le_of_lt h2sum)
        · rw [div_le_one h2sum]
          linarith

/-- Sorting the count pairs descending puts a strict-maximum count first. -/
theorem sortedDesc_head (counts : List (ℕ × ℕ)) (cnt i : ℕ)
    (hmem : (cnt, i) ∈ counts)
    (hmax : ∀ p ∈ counts, p ≠ (cnt, i) → p.1 < cnt) :
    ∃ rest, sortedDesc counts = (cnt, i) :: rest := by
  have hperm : List.Perm (sortedDesc counts) counts :=
    List.perm_insertionSort countGe counts
  have hsorted : List.Sorted countGe (sortedDesc counts) :=
    List.sorted_insertionSort countGe counts
  cases hs : sortedDesc counts with
  | nil =>
    exfalso
    have hmem2 : (cnt, i) ∈ sortedDesc counts := hperm.mem_iff.mpr hmem
    rw [hs] at hmem2
    simp at hmem2
  | cons top rest =>
    by_cases ht : top = (cnt, i)
    · exact ⟨rest, by rw [ht]⟩
    · exfalso
      have htop_mem : top ∈ counts := hperm.subset (hs ▸ List.mem_cons_self top rest)
      have hlt : top.1 < cnt := hmax top htop_mem ht
      have hci : (cnt, i) ∈ top :: rest := hs ▸ hperm.mem_iff.mpr hmem
      rcases List.mem_cons.mp hci with heq | hmem3
      · exact ht heq.symm
      · have hrel : countGe top (cnt, i) := by
          rw [hs] at hsorted
          exact List.rel_of_sorted_cons hsorted _ hmem3
        unfold countGe at hrel
        dsimp only at hrel
        omega

/-- C7: among the quantised buckets the sampler picks the one with the
strictly largest pixel count and returns its palette colour with hue and
saturation as computed by `rgb2hsl` and lightness forced to exactly 1/2;
in particular a frame quantised to a 90%-blue and a 10%-red bucket yields
pure blue. -/
theorem dominant_bucket (counts : List (ℕ × ℕ)) (palette : List ℕ)
    (cnt i pr pg pb : ℕ)
    (hmem : (cnt, i) ∈ counts)
    (hmax : ∀ p ∈ counts, p ≠ (cnt, i) → p.1 < cnt)
    (hr : palette.get? (i * 3) = some pr)
    (hg2 : palette.get? (i * 3 + 1) = some pg)
    (hb2 : palette.get? (i * 3 + 2) = some pb) :
    getDominantScreenColor counts palette
        = some ((rgb2hsl ((pr : ℚ) / 255, (pg : ℚ) / 255, (pb : ℚ) / 255)).1,
            (rgb2hsl ((pr : ℚ) / 255, (pg : ℚ) / 255, (pb : ℚ) / 255)).2.1,
            1 / 2) ∧
    (getDominantScreenColor [(90, 0), (10, 1)]
        [0, 0, 255, 255, 0, 0]).map hsl2rgb = some (0, 0, 1) := by
  obtain ⟨rest, hs⟩ := sortedDesc_head counts cnt i hmem hmax
  constructor
  · unfold getDominantScreenColor
    rw [hs]
    dsimp only
    rw [hr, hg2, hb2]
  · have h1 : rgb2hsl ((0 : ℚ), (0 : ℚ), (1 : ℚ)) = (2/3, 1, 1/2) := by
      norm_num [rgb2hsl, normHue, pyMin, pyMax]
    have h2 : hsl2rgb (2/3, 1, 1/2) = (0, 0, 1) := by
      norm_num [hsl2rgb, hue2rgb]
    have hsrt : sortedDesc [(90, 0), (10, 1)] = [(90, 0), (10, 1)] := by
      norm_num [sortedDesc, List.insertionSort, List.orderedInsert, countGe]
    unfold getDominantScreenColor
    rw [hsrt]
    dsimp only
    simp only [List.get?]
    norm_num [h1, h2]

theorem dominant_bucket_witness :
    ((90, 0) ∈ ([(90, 0), (10, 1)] : List (ℕ × ℕ)) ∧
      (∀ p ∈ ([(90, 0), (10, 1)] : List (ℕ × ℕ)), p ≠ (90, 0) → p.1 < 90) ∧
      ([0, 0, 255, 255, 0, 0] : List ℕ).get? (0 * 3) = some 0 ∧
      ([0, 0, 255, 255, 0, 0] : List ℕ).get? (0 * 3 + 1) = some 0 ∧
      ([0, 0, 255, 255, 0, 0] : List ℕ).get? (0 * 3 + 2) = some 255) ∧
    (getDominantScreenColor [(90, 0), (10, 1)] [0, 0, 255, 255, 0, 0]
        = some ((rgb2hsl (((0 : ℕ) : ℚ) / 255, ((0 : ℕ) : ℚ) / 255,
              ((255 : ℕ) : ℚ) / 255)).1,
            (rgb2hsl (((0 : ℕ) : ℚ) / 255, ((0 : ℕ) : ℚ) / 255,
              ((255 : ℕ) : ℚ) / 255)).2.1,
            1 / 2) ∧
      (getDominantScreenColor [(90, 0), (10, 1)]
          [0, 0, 255, 255, 0, 0]).map hsl2rgb = some (0, 0, 1)) :=
  ⟨⟨by decide, by decide, by decide, by decide, by decide⟩,
    dominant_bucket [(90, 0), (10, 1)] [0, 0, 255, 255, 0, 0] 90 0 0 0 255
      (by decide) (by decide) (by decide) (by decide) (by decide)⟩

/-- C9: on any quantised frame with at least one bucket, and a palette of
byte values long enough for the selected slice, the sampler deterministically
returns a defined, valid colour: hue and saturation in [0,1] and lightness
exactly 1/2; and any two runs on the same input agree. -/
theorem sampler_deterministic (counts : List (ℕ × ℕ)) (palette : List ℕ)
    (hne : counts ≠ [])
    (hpal : ∀ x ∈ palette, x ≤ 255)
    (hidx : ∀ p ∈ counts, p.2 * 3 + 2 < palette.length) :
    (∃ c : HSL, getDominantScreenColor counts palette = some c ∧
      (0 ≤ c.1 ∧ c.1 ≤ 1) ∧ (0 ≤ c.2.1 ∧ c.2.1 ≤ 1) ∧ c.2.2 = 1/2) ∧
    (∀ c₁ c₂ : HSL, getDominantScreenColor counts palette = some c₁ →
      getDominantScreenColor counts palette = some c₂ → c₁ = c₂) := by
  have hperm : List.Perm (sortedDesc counts) counts :=
    List.perm_insertionSort countGe counts
  cases hs : sortedDesc counts with
  | nil =>
    exfalso
    apply hne
    have hlen := hperm.length_eq
    rw [hs] at hlen
    exact List.eq_nil_of_length_eq_zero hlen.symm
  | cons top rest =>
    have htopmem : top ∈ counts := hperm.subset (hs ▸ List.mem_cons_self top rest)
    have hidxtop := hidx top htopmem
    have hlt0 : top.2 * 3 < palette.length := by omega
    have hlt1 : top.2 * 3 + 1 < palette.length := by omega
    have hlt2 : top.2 * 3 + 2 < palette.length := by omega
    obtain ⟨pr, hr⟩ : ∃ v, palette.get? (top.2 * 3) = some v :=
      ⟨palette.get ⟨_, hlt0⟩, List.get?_eq_get hlt0⟩
    obtain ⟨pg, hg2⟩ : ∃ v, palette.get? (top.2 * 3 + 1) = some v :=
      ⟨palette.get ⟨_, hlt1⟩, List.get?_eq_get hlt1⟩
    obtain ⟨pb, hb2⟩ : ∃ v, palette.get? (top.2 * 3 + 2) = some v :=
      ⟨palette.get ⟨_, hlt2⟩, List.get?_eq_get hlt2⟩
    have hcomp : getDominantScreenColor counts palette
        = some ((rgb2hsl ((pr : ℚ) / 255, (pg : ℚ) / 255, (pb : ℚ) / 255)).1,
            (rgb2hsl ((pr : ℚ) / 255, (pg : ℚ) / 255, (pb : ℚ) / 255)).2.1,
            1 / 2) := by
      unfold getDominantScreenColor
      rw [hs]
      dsimp only
      rw [hr, hg2, hb2]
    have hb255 : ∀ n : ℕ, n ≤ 255 → (0 : ℚ) ≤ (n : ℚ) / 255 ∧ (n : ℚ) / 255 ≤ 1 := by
      intro n hn
      constructor
      · positivity
      · rw [div_le_one (by norm_num)]
        exact_mod_cast hn
    obtain ⟨hpr0, hpr1⟩ := hb255 pr (hpal pr (List.get?_mem hr))
    obtain ⟨hpg0, hpg1⟩ := hb255 pg (hpal pg (List.get?_mem hg2))
    obtain ⟨hpb0, hpb1⟩ := hb255 pb (hpal pb (List.get?_mem hb2))
    have hv := rgb2hsl_valid ((pr : ℚ) / 255) ((pg : ℚ) / 255) ((pb : ℚ) / 255)
      hpr0 hpr1 hpg0 hpg1 hpb0 hpb1
    refine ⟨⟨_, hcomp, hv.1, hv.2, rfl⟩, ?_⟩
    intro c₁ c₂ e₁ e₂
    rw [e₁] at e₂
    exact Option.some.inj e₂

theorem sampler_deterministic_witness :
    (([(90, 0), (10, 1)] : List (ℕ × ℕ)) ≠ [] ∧
      (∀ x ∈ ([0, 0, 255, 255, 0, 0] : List ℕ), x ≤ 255) ∧
      (∀ p ∈ ([(90, 0), (10, 1)] : List (ℕ × ℕ)),
        p.2 * 3 + 2 < ([0, 0, 255, 255, 0, 0] : List ℕ).length)) ∧
    ((∃ c : HSL,
        getDominantScreenColor [(90, 0), (10, 1)] [0, 0, 255, 255, 0, 0]
          = some c ∧
        (0 ≤ c.1 ∧ c.1 ≤ 1) ∧ (0 ≤ c.2.1 ∧ c.2.1 ≤ 1) ∧ c.2.2 = 1/2) ∧
      (∀ c₁ c₂ : HSL,
        getDominantScreenColor [(90, 0), (10, 1)] [0, 0, 255, 255, 0, 0]
          = some c₁ →
        getDominantScreenColor [(90, 0), (10, 1)] [0, 0, 255, 255, 0, 0]
          = some c₂ → c₁ = c₂)) :=
  ⟨⟨by decide, by decide, by decide⟩,
    sampler_deterministic [(90, 0), (10, 1)] [0, 0, 255, 255, 0, 0]
      (by decide) (by decide) (by decide)⟩

/-- C6: `change_power_status` writes exactly the bytes 0xCC 0x23 0x33 when
turning on and exactly 0xCC 0x24 0x33 when turning off; the two payloads are
distinct fixed 3-byte sequences depending on nothing but the flag. -/
theorem change_power_codes :
    changePowerData true = some [0xCC, 0x23, 0x33] ∧
    changePowerData false = some [0xCC, 0x24, 0x33] ∧
    changePowerData true ≠ changePowerData false := by
  refine ⟨by decide, by decide, by decide⟩

end LEDControl
